import Mathlib

/-!
Verification development for the stack-api-utilities repository.

We give a shallow embedding, in Lean, of the harvesting / cross-referencing
pipeline implemented by the three Python scripts of the repository
(`powerbi-dashboard/powerbi_collector.py`, `knowledge-reuse/knowledge-reuse-export.py`,
`scim-deletion/so4t_scim.py`), and prove or refute the specified properties of

* the retry loop `make_api_request` (429 backoff, bounded non-429 retries,
  burst-gate semaphore, absence of any token-bucket consumption),
* the `TokenBucket` class (refill arithmetic and the 0 ≤ tokens ≤ max invariant),
* the paginated fetch loops (`get_questions_for_user`, `get_questions`),
* the concurrent batch orchestrator (`fetch_questions_for_user` result map),
* the join engine (`process_user_data`, `extract_accepted_answers_from_all_answers`),
* the SCIM `ErrorHandler` retry table, and
* the date-range user filter (`get_users_created_in_timeframe`).

Network interaction is modelled by oracles: a list of transport-level outcomes
consumed in order by the retry loop, or a function from page number / user id to
the (already JSON-decoded) response.  Clock readings are explicit parameters.
Waiting, semaphore traffic and HTTP traffic are recorded in an event trace so
that gating and delay properties can be stated about the trace.
-/

namespace StackApi

/-! ## The transport outcomes seen by `make_api_request` (powerbi_collector.py 228-300)

One `Resp` is what a single `session.get` inside the `while True:` loop produces:
a 200 with a decoded JSON body (modelled by a numeric payload), a 429 with an
optional `Retry-After` header value, another HTTP status, an
`asyncio.TimeoutError`, an exception whose text mentions 429 / rate limiting,
or any other exception. -/
inductive Resp where
  | ok (payload : Nat)
  | http429 (retryAfter : Option ℚ)
  | httpErr
  | timeoutExc
  | exc429
  | excOther
deriving DecidableEq, Repr

/-- Events recorded while the retry loop runs: acquiring / releasing the
`RATE_LIMITER` burst semaphore, issuing the HTTP request, consuming a token
from the `TOKEN_BUCKET` budget gate, and sleeping (`rateLimit` marks the sleeps
of the 429 path as opposed to the fixed 1-second sleeps of the other paths). -/
inductive Ev where
  | semAcquire
  | semRelease
  | httpRequest
  | tokenConsume
  | wait (d : ℚ) (rateLimit : Bool)
deriving DecidableEq, Repr

/-- Result of running the retry loop against a finite list of transport
outcomes: a 200 payload, `gaveUp` for the `return None` paths, or `pending`
when the outcome list was exhausted while the loop was still retrying. -/
inductive RunResult where
  | success (p : Nat)
  | gaveUp
  | pending
deriving DecidableEq, Repr

/-- Trace, final result and number of transport outcomes consumed by one call
of the retry loop. -/
structure RunOut where
  trace : List Ev
  result : RunResult
  consumed : Nat
deriving DecidableEq, Repr

/-- Constant `MIN_RETRY_DELAY` (powerbi_collector.py line 36). -/
def MIN_RETRY_DELAY : ℚ := 5

/-- Constant `MAX_RETRY_DELAY` (powerbi_collector.py line 37). -/
def MAX_RETRY_DELAY : ℚ := 300

/-- Constant `BACKOFF_MULTIPLIER` (powerbi_collector.py line 38). -/
def BACKOFF_MULTIPLIER : ℚ := 3 / 2

/-- Constant `max_non_rate_limit_retries` (powerbi_collector.py line 233). -/
def MAX_NON_RATE_LIMIT_RETRIES : Nat := 3

/-- Embedding of the `while True:` loop of `make_api_request`
(powerbi_collector.py lines 240-300).  `curDelay` is `current_retry_delay`
and `nonRL` is `non_rate_limit_retry_count`.  Each iteration acquires the
burst semaphore (`async with RATE_LIMITER`), issues the request, and then
branches exactly as the source does; the 429 / other-status sleeps happen
while the semaphore is still held, the exception-path sleeps after it has
been released, which the event order records.  No event ever consumes a
token from `TOKEN_BUCKET`: the source never calls `wait_for_token`. -/
def runReq : List Resp → ℚ → Nat → RunOut
  | [], _, _ => ⟨[], .pending, 0⟩
  | r :: rest, curDelay, nonRL =>
    match r with
    | .ok p =>
        ⟨[.semAcquire, .httpRequest, .semRelease], .success p, 1⟩
    | .http429 (some ra) =>
        let o := runReq rest curDelay nonRL
        ⟨[.semAcquire, .httpRequest, .wait ra true, .semRelease] ++ o.trace,
          o.result, o.consumed + 1⟩
    | .http429 none =>
        let w := min curDelay MAX_RETRY_DELAY
        let o := runReq rest (min (curDelay * BACKOFF_MULTIPLIER) MAX_RETRY_DELAY) nonRL
        ⟨[.semAcquire, .httpRequest, .wait w true, .semRelease] ++ o.trace,
          o.result, o.consumed + 1⟩
    | .httpErr =>
        if MAX_NON_RATE_LIMIT_RETRIES ≤ nonRL + 1 then
          ⟨[.semAcquire, .httpRequest, .semRelease], .gaveUp, 1⟩
        else
          let o := runReq rest curDelay (nonRL + 1)
          ⟨[.semAcquire, .httpRequest, .wait 1 false, .semRelease] ++ o.trace,
            o.result, o.consumed + 1⟩
    | .timeoutExc =>
        if MAX_NON_RATE_LIMIT_RETRIES ≤ nonRL + 1 then
          ⟨[.semAcquire, .httpRequest, .semRelease], .gaveUp, 1⟩
        else
          let o := runReq rest curDelay (nonRL + 1)
          ⟨[.semAcquire, .httpRequest, .semRelease, .wait 1 false] ++ o.trace,
            o.result, o.consumed + 1⟩
    | .exc429 =>
        let w := min curDelay MAX_RETRY_DELAY
        let o := runReq rest (min (curDelay * BACKOFF_MULTIPLIER) MAX_RETRY_DELAY) nonRL
        ⟨[.semAcquire, .httpRequest, .semRelease, .wait w true] ++ o.trace,
          o.result, o.consumed + 1⟩
    | .excOther =>
        if MAX_NON_RATE_LIMIT_RETRIES ≤ nonRL + 1 then
          ⟨[.semAcquire, .httpRequest, .semRelease], .gaveUp, 1⟩
        else
          let o := runReq rest curDelay (nonRL + 1)
          ⟨[.semAcquire, .httpRequest, .semRelease, .wait 1 false] ++ o.trace,
            o.result, o.consumed + 1⟩

/-- Top-level entry of `make_api_request`: `current_retry_delay` starts at
`MIN_RETRY_DELAY` and `non_rate_limit_retry_count` at 0
(powerbi_collector.py lines 234, 238). -/
def make_api_request (rs : List Resp) : RunOut :=
  runReq rs MIN_RETRY_DELAY 0

/-- Number of HTTP requests in a trace. -/
def countHttp : List Ev → Nat
  | [] => 0
  | .httpRequest :: l => countHttp l + 1
  | _ :: l => countHttp l

/-- Number of burst-semaphore acquisitions in a trace. -/
def countSem : List Ev → Nat
  | [] => 0
  | .semAcquire :: l => countSem l + 1
  | _ :: l => countSem l

/-- Number of token-bucket consumptions in a trace. -/
def countTok : List Ev → Nat
  | [] => 0
  | .tokenConsume :: l => countTok l + 1
  | _ :: l => countTok l

/-- The sleep durations of the rate-limit (429) path, in order. -/
def rlWaits : List Ev → List ℚ
  | [] => []
  | .wait d true :: l => d :: rlWaits l
  | _ :: l => rlWaits l

/-- The sleep durations of the non-rate-limit retry paths, in order. -/
def nonRlWaits : List Ev → List ℚ
  | [] => []
  | .wait d false :: l => d :: nonRlWaits l
  | _ :: l => nonRlWaits l

/-- Checks that every `httpRequest` in the trace is covered by a preceding
grant event (counted by `isGrant`): a grant raises the available budget by
one, a request requires a strictly positive budget and spends one unit.
`coveredBy isGrant l 0 = true` says no request is ever issued without first
obtaining a grant of that kind. -/
def coveredBy (isGrant : Ev → Bool) : List Ev → Nat → Bool
  | [], _ => true
  | e :: l, avail =>
    if isGrant e then coveredBy isGrant l (avail + 1)
    else
      match e with
      | .httpRequest => decide (0 < avail) && coveredBy isGrant l (avail - 1)
      | _ => coveredBy isGrant l avail

/-- Grant predicate for the budget gate: a token-bucket consumption. -/
def isTokenGrant : Ev → Bool
  | .tokenConsume => true
  | _ => false

/-- Grant predicate for the burst gate: a semaphore acquisition. -/
def isSemGrant : Ev → Bool
  | .semAcquire => true
  | _ => false

/-- The outcomes of the non-429 retry budget: another HTTP status, a timeout,
or an exception not tied to rate limiting. -/
def isNonRL : Resp → Bool
  | .httpErr => true
  | .timeoutExc => true
  | .excOther => true
  | _ => false

/-- The rate-limit retry delay the spec predicates on: the (n+1)-st retry of a
429 without `Retry-After` sleeps `min (5 · 1.5^n) 300` seconds. -/
def rlDelay (n : Nat) : ℚ := min (MIN_RETRY_DELAY * BACKOFF_MULTIPLIER ^ n) MAX_RETRY_DELAY

/-! ## The `TokenBucket` class (powerbi_collector.py lines 47-91)

Times are epoch seconds (`Nat`); the token count is an integer so that the
lower bound `0 ≤ tokens` is a genuine statement about the decrement at the end
of `wait_for_token`.  The inner `while self.tokens <= 0` loop is driven by the
list of clock readings observed after each sleep; the model returns `none`
when that list is exhausted while the bucket is still empty (the call is then
still blocked, it has not produced a state). -/

/-- Constant `TOKEN_BUCKET_MAX` (powerbi_collector.py line 31). -/
def TOKEN_BUCKET_MAX : ℤ := 5000

/-- Constant `TOKEN_BUCKET_REFILL_RATE` (powerbi_collector.py line 32). -/
def TOKEN_BUCKET_REFILL_RATE : ℤ := 100

/-- Constant `TOKEN_BUCKET_REFILL_INTERVAL` (powerbi_collector.py line 33). -/
def TOKEN_BUCKET_REFILL_INTERVAL : Nat := 60

/-- Mutable state of a `TokenBucket` instance: `self.tokens` and
`self.last_refill`. -/
structure BucketState where
  tokens : ℤ
  lastRefill : Nat
deriving DecidableEq, Repr

/-- Initial state built by `TokenBucket.__init__` at clock reading `t0`
(powerbi_collector.py lines 48-54). -/
def TokenBucket.init (t0 : Nat) : BucketState :=
  { tokens := TOKEN_BUCKET_MAX, lastRefill := t0 }

/-- The refill computation at the top of `wait_for_token`
(powerbi_collector.py lines 59-69): `refill_cycles = time_passed /
refill_interval`; when at least one whole cycle has passed, add
`int(refill_cycles) * refill_rate` tokens capped at `max_tokens` and set
`last_refill = now` (the fractional part of the elapsed time is discarded by
that assignment, not carried over). -/
def TokenBucket.refillStep (s : BucketState) (now : Nat) : BucketState :=
  let timePassed := now - s.lastRefill
  if 1 ≤ timePassed / TOKEN_BUCKET_REFILL_INTERVAL then
    { tokens := min TOKEN_BUCKET_MAX
        (s.tokens + (timePassed / TOKEN_BUCKET_REFILL_INTERVAL : Nat) * TOKEN_BUCKET_REFILL_RATE),
      lastRefill := now }
  else s

/-- The `while self.tokens <= 0` loop of `wait_for_token`
(powerbi_collector.py lines 72-84): after each sleep the loop reads the clock
(`wakes` supplies the successive readings) and, when a whole refill interval
has passed since `last_refill`, adds `refill_rate` tokens capped at
`max_tokens` and sets `last_refill` to the reading. -/
def TokenBucket.waitLoop : BucketState → List Nat → Option BucketState
  | s, wakes =>
    if 0 < s.tokens then some s
    else
      match wakes with
      | [] => none
      | w :: rest =>
        if TOKEN_BUCKET_REFILL_INTERVAL ≤ w - s.lastRefill then
          TokenBucket.waitLoop
            { tokens := min TOKEN_BUCKET_MAX (s.tokens + TOKEN_BUCKET_REFILL_RATE),
              lastRefill := w } rest
        else TokenBucket.waitLoop s rest

/-- One call of `TokenBucket.wait_for_token` (powerbi_collector.py lines
56-88): refill, wait for a positive token count, then consume one token.
`now` is the clock reading at entry and `wakes` the readings taken inside the
empty-bucket loop. -/
def TokenBucket.wait_for_token (s : BucketState) (now : Nat) (wakes : List Nat) :
    Option BucketState :=
  match TokenBucket.waitLoop (TokenBucket.refillStep s now) wakes with
  | none => none
  | some s1 => some { s1 with tokens := s1.tokens - 1 }

/-- A sequence of completed `wait_for_token` calls, each with its entry clock
reading and its inner-loop clock readings; `none` when some call never
acquired a token within its supplied readings. -/
def TokenBucket.runCalls : BucketState → List (Nat × List Nat) → Option BucketState
  | s, [] => some s
  | s, c :: cs =>
    match TokenBucket.wait_for_token s c.1 c.2 with
    | none => none
    | some s1 => TokenBucket.runCalls s1 cs

/-- The quota-state invariant of the spec: `0 ≤ tokens ≤ maxTokens`. -/
def BucketInv (s : BucketState) : Prop :=
  0 ≤ s.tokens ∧ s.tokens ≤ TOKEN_BUCKET_MAX

/-! ## Paginated fetching (powerbi_collector.py lines 562-591 and 665-691)

`get_questions_for_user`, `get_articles_for_user` and
`get_paginated_data_for_question_answers` all run the same loop: request page
`page` with `pageSize = 100`; stop with the collected items when the response
is `None` (a terminal `make_api_request` failure); otherwise append `items`,
read `totalPages` from the first response only, stop when `page ≥ totalPages`,
else continue with `page + 1`.  `serve` is the endpoint oracle: the decoded
response for each page number, `none` for a terminal failure.  The fuel
argument bounds the number of iterations; the loop answers `none` only when
the fuel runs out, so termination within `k` pages is the statement that fuel
`k` suffices.  The request log records each page number actually fetched. -/

/-- A decoded page response: the `items` list (items are opaque numeric ids)
and the `totalPages` field (`data.get("totalPages", 1)`). -/
structure PageResp where
  items : List Nat
  totalPages : Nat
deriving DecidableEq, Repr

/-- The fetch loop shared by the paginated fetchers of powerbi_collector.py.
Arguments: oracle, fuel, current page, `total_pages` (`none` until the first
successful response), accumulated items, request log. -/
def fetchLoop (serve : Nat → Option PageResp) :
    Nat → Nat → Option Nat → List Nat → List Nat → Option (List Nat × List Nat)
  | 0, _, _, _, _ => none
  | fuel + 1, page, tp, acc, reqs =>
    match serve page with
    | none => some (acc, reqs ++ [page])
    | some r =>
      let acc2 := acc ++ r.items
      let tp2 := tp.getD r.totalPages
      if tp2 ≤ page then some (acc2, reqs ++ [page])
      else fetchLoop serve fuel (page + 1) (some tp2) acc2 (reqs ++ [page])

/-- Embedding of `get_questions_for_user` (powerbi_collector.py lines
562-591): the loop starts at page 1 with no `total_pages` yet.  The result is
the collected item list together with the log of requested pages. -/
def get_questions_for_user (serve : Nat → Option PageResp) (fuel : Nat) :
    Option (List Nat × List Nat) :=
  fetchLoop serve fuel 1 none [] []

/-! ## The concurrent batch orchestrator (powerbi_collector.py lines 1117-1146)

`fetch_questions_for_user` runs once per input user under a semaphore; each
task reads `user.get('id')`, returns without touching the map when the id is
falsy (`None` or `0`), and otherwise stores the fetched question list — or
`[]` when the fetch raised — under that id in `all_user_questions`.  Because
every task writes only its own key, the concurrent map update is modelled by a
left fold over the input list; the per-user outcome (success with a list, or a
raised exception) is supplied by the oracle. -/

/-- Outcome of `get_questions_for_user` for one user id: the question list, or
an exception raised while fetching. -/
inductive FetchOutcome where
  | ok (qs : List Nat)
  | err
deriving DecidableEq, Repr

/-- Value stored in `all_user_questions` for an outcome: the questions on
success, `[]` when the task's `except` clause ran. -/
def FetchOutcome.stored : FetchOutcome → List Nat
  | .ok qs => qs
  | .err => []

/-- The effect of one `fetch_questions_for_user` task on `all_user_questions`
(powerbi_collector.py lines 1124-1136): a falsy id leaves the map untouched,
otherwise the outcome's stored value is written under the id. -/
def batchStep (oracle : Nat → FetchOutcome) (m : Nat → Option (List Nat)) :
    Option Nat → Nat → Option (List Nat)
  | none => m
  | some uid =>
    if uid = 0 then m
    else fun q => if q = uid then some (oracle uid).stored else m q

/-- Embedding of the Step-2 batch loop of `collect_powerbi_data`
(powerbi_collector.py lines 1117-1146): build `all_user_questions` from the
input users.  `users` is the list of `user.get('id')` values and `oracle` the
per-id outcome of `get_questions_for_user`.  Each task writes only its own
key, so the concurrently built dict is the fold of the per-task updates. -/
def fetch_questions_batch (users : List (Option Nat)) (oracle : Nat → FetchOutcome) :
    Nat → Option (List Nat) :=
  users.foldl (batchStep oracle) (fun _ => none)

/-! ## Harvested records consumed by the join engine

Structures carry exactly the fields the join engine reads.  Optional fields
model `dict.get` results that may be missing or `None`; numeric epoch values
are `Nat`, scores and reputation `ℤ`.  Missed-key defaults (`.get(k, d)`) are
applied at the use sites, as in the source.  URL-like string fields that are
copied verbatim and read nowhere are omitted. -/

/-- A tag as it appears in a `tags` list: either a JSON object with `id` and
`name`, or a bare string (`process_user_data` checks `isinstance(tag, dict)`).
-/
inductive TagV where
  | obj (id : Option Nat) (name : Option String)
  | raw (s : String)
deriving DecidableEq, Repr

/-- An owner / editor sub-object (`answer.get('owner', {})` etc.). -/
structure OwnerRec where
  id : Option Nat
  accountId : Option Nat
  name : Option String
  reputation : Option ℤ
  role : Option String
deriving DecidableEq, Repr

/-- A raw user record as returned by the v3 `users` endpoint. -/
structure UserRec where
  id : Option Nat
  name : Option String
  accountId : Option Nat
  jobTitle : Option String
  department : Option String
  role : Option String
  reputation : Option ℤ
  creationDate : Option Nat
deriving DecidableEq, Repr

/-- The v2.3 detail record held in `user_details` (snake_case fields). -/
structure DetailedInfo where
  creation_date : Option Nat
  last_access_date : Option Nat
  location : Option String
  reputation : Option ℤ
deriving DecidableEq, Repr

/-- A raw question record. -/
structure QuestionRec where
  id : Option Nat
  title : Option String
  tags : List TagV
  creationDate : Option Nat
  score : ℤ
  viewCount : Nat
  answerCount : Nat
  isAnswered : Option Bool
  hasAcceptedAnswer : Option Bool
deriving DecidableEq, Repr

/-- A raw answer record. -/
structure AnswerRec where
  id : Option Nat
  questionId : Option Nat
  score : Option ℤ
  isAccepted : Bool
  isDeleted : Bool
  creationDate : Option Nat
  lastActivityDate : Option Nat
  commentCount : Nat
  owner : Option OwnerRec
  lastEditor : Option OwnerRec
deriving DecidableEq, Repr

/-- A raw article record. -/
structure ArticleRec where
  id : Option Nat
  articleType : Option String
  title : Option String
  tags : List TagV
  creationDate : Option Nat
  lastActivityDate : Option Nat
  score : ℤ
  viewCount : Nat
  isDeleted : Bool
  isObsolete : Bool
  isClosed : Bool
  owner : Option OwnerRec
  lastEditor : Option OwnerRec
deriving DecidableEq, Repr

/-! ## Accepted-answer extraction -/

/-- The value stored per question id by
`extract_accepted_answers_from_all_answers` (powerbi_collector.py lines
791-796): the answer's id, creation date, score and owner. -/
structure AcceptedInfo where
  id : Option Nat
  creationDate : Option Nat
  score : Option ℤ
  owner : Option OwnerRec
deriving DecidableEq, Repr

/-- Projection of an answer to the stored accepted-answer value. -/
def AnswerRec.toAcceptedInfo (a : AnswerRec) : AcceptedInfo :=
  ⟨a.id, a.creationDate, a.score, a.owner⟩

/-- One iteration of the loop of `extract_accepted_answers_from_all_answers`
(powerbi_collector.py lines 787-797): for an answer with `isAccepted` and a
truthy `questionId` (in Python `if question_id:` rejects both `None` and `0`),
store its projection under that question id — an assignment that overwrites
any earlier entry for the same key. -/
def extractStep (m : Nat → Option AcceptedInfo) (a : AnswerRec) : Nat → Option AcceptedInfo :=
  if a.isAccepted then
    match a.questionId with
    | none => m
    | some q =>
      if q = 0 then m
      else fun q2 => if q2 = q then some a.toAcceptedInfo else m q2
  else m

/-- The dict built by `extract_accepted_answers_from_all_answers`, as its
lookup function: the fold of `extractStep` over the answers in order. -/
def extract_accepted_answers (answers : List AnswerRec) : Nat → Option AcceptedInfo :=
  answers.foldl extractStep (fun _ => none)

/-- Embedding of the scan inside `get_accepted_answer`
(knowledge-reuse-export.py lines 103-113): return the first answer of the
list whose `isAccepted` is true, `None` when there is none.  The cache and
transport around it do not change which answer is chosen. -/
def get_accepted_answer : List AnswerRec → Option AnswerRec
  | [] => none
  | a :: rest => if a.isAccepted then some a else get_accepted_answer rest

/-! ## The join engine (powerbi_collector.py lines 762-1064)

`process_user_data` is the denormalizing join: it consumes one raw user, the
frozen collections gathered for that user, the accepted-answer map, the SME
map and the tag-name cache, and the current clock reading (the source reads
`datetime.now()` three times: for the account longevity, `Last_Updated` and
`Data_Collection_Timestamp`).  Timestamp formatting
(`convert_epoch_to_utc_timestamp`, `isoformat`) is injective on epoch values,
so the model keeps the epoch value itself. -/

/-- Embedding of `calculate_account_longevity` (powerbi_collector.py lines
762-769): `(now - created).days`, which floors, and 0 for a falsy
`creation_date` (absent or epoch 0). -/
def calculate_account_longevity (creationDate : Option Nat) (now : Nat) : ℤ :=
  match creationDate with
  | none => 0
  | some c => if c = 0 then 0 else Int.fdiv ((now : ℤ) - (c : ℤ)) 86400

/-- Embedding of `convert_epoch_to_utc_timestamp` (powerbi_collector.py lines
207-219): `None` for a falsy input, otherwise the formatted timestamp,
modelled by the epoch value it renders. -/
def convert_epoch_to_utc_timestamp (e : Option Nat) : Option Nat :=
  match e with
  | none => none
  | some t => if t = 0 then none else some t

/-- Embedding of `get_user_sme_tags` (powerbi_collector.py lines 771-781):
walk the SME map in order; for every tag whose expert list contains the user,
emit the cached tag name, falling back to `tag_<id>`. -/
def get_user_sme_tags (uid : Nat) (allSmeData : List (Nat × List Nat))
    (smeCache : Nat → Option String) : List String :=
  (allSmeData.filter (fun p => uid ∈ p.2)).map
    (fun p => (smeCache p.1).getD ("tag_" ++ toString p.1))

/-- Tag-name extraction shared by the question and article processing loops:
`tag.get('name', '')` for a dict, `str(tag)` otherwise. -/
def tagNames (tags : List TagV) : List String :=
  tags.map fun t =>
    match t with
    | .obj _ n => n.getD ""
    | .raw s => s

/-- An owner sub-object as flattened by `process_answers_data` /
`process_articles_data` (powerbi_collector.py lines 831-857, 893-910). -/
structure ProcessedOwner where
  id : Option Nat
  account_id : Option Nat
  name : Option String
  reputation : Option ℤ
  role : Option String
deriving DecidableEq, Repr

/-- Flattening of `answer.get('owner', {})` followed by `.get` on each field:
a missing owner dict yields all-`None` fields. -/
def mkProcessedOwner : Option OwnerRec → ProcessedOwner
  | none => ⟨none, none, none, none, none⟩
  | some o => ⟨o.id, o.accountId, o.name, o.reputation, o.role⟩

/-- One element of the list built by `process_answers_data`
(powerbi_collector.py lines 802-861). -/
structure ProcessedAnswer where
  answer_id : Option Nat
  question_id : Option Nat
  score : ℤ
  is_accepted : Bool
  is_deleted : Bool
  creation_date : Option Nat
  last_activity_date : Option Nat
  comment_count : Nat
  owner : ProcessedOwner
  last_editor : Option ProcessedOwner
deriving DecidableEq, Repr

/-- Embedding of `process_answers_data` (powerbi_collector.py lines 802-861):
a per-answer field flattening with defaults (`score` defaults to 0,
`last_editor` stays `None` for a falsy editor dict). -/
def process_answers_data (l : List AnswerRec) : List ProcessedAnswer :=
  l.map fun a =>
    ⟨a.id, a.questionId, a.score.getD 0, a.isAccepted, a.isDeleted, a.creationDate,
      a.lastActivityDate, a.commentCount, mkProcessedOwner a.owner,
      a.lastEditor.map (fun e => mkProcessedOwner (some e))⟩

/-- One element of the list built by `process_articles_data`
(powerbi_collector.py lines 862-914). -/
structure ProcessedArticle where
  article_id : Option Nat
  articleType : Option String
  title : Option String
  tags : List String
  creation_date : Option Nat
  last_activity_date : Option Nat
  score : ℤ
  view_count : Nat
  is_deleted : Bool
  is_obsolete : Bool
  is_closed : Bool
  owner : ProcessedOwner
  last_editor : Option ProcessedOwner
deriving DecidableEq, Repr

/-- Embedding of `process_articles_data` (powerbi_collector.py lines
862-914). -/
def process_articles_data (l : List ArticleRec) : List ProcessedArticle :=
  l.map fun a =>
    ⟨a.id, a.articleType, a.title, tagNames a.tags, a.creationDate, a.lastActivityDate,
      a.score, a.viewCount, a.isDeleted, a.isObsolete, a.isClosed,
      mkProcessedOwner a.owner, a.lastEditor.map (fun e => mkProcessedOwner (some e))⟩

/-- The owner sub-dict of `accepted_answer_data` (powerbi_collector.py lines
966-972). -/
structure AAOwner where
  id : Option Nat
  display_name : Option String
  reputation : Option ℤ
  account_id : Option Nat
  role : Option String
deriving DecidableEq, Repr

/-- The `accepted_answer_data` dict (powerbi_collector.py lines 960-973). -/
structure AcceptedAnswerData where
  answer_id : Option Nat
  creation_date : Option Nat
  score : Option ℤ
  owner : AAOwner
deriving DecidableEq, Repr

/-- Build `accepted_answer_data` from a stored accepted-answer value:
`answer_owner = accepted_answer.get('owner', {})` then one `.get` per field.
-/
def mkAcceptedAnswerData (i : AcceptedInfo) : AcceptedAnswerData :=
  let ow := match i.owner with
    | none => AAOwner.mk none none none none none
    | some o => AAOwner.mk o.id o.name o.reputation o.accountId o.role
  ⟨i.id, i.creationDate, i.score, ow⟩

/-- One element of `processed_questions` (powerbi_collector.py lines
978-991).  `answers` holds the raw answers of `user_answers` whose
`questionId` equals this question's id. -/
structure ProcessedQuestion where
  question_id : Option Nat
  title : Option String
  tags : List String
  creation_date : Option Nat
  score : ℤ
  view_count : Nat
  answer_count : Nat
  is_answered : Option Bool
  has_accepted_answer : Bool
  accepted_answer : Option AcceptedAnswerData
  answers : List AnswerRec
deriving DecidableEq, Repr

/-- The per-question body of the `for question in user_questions:` loop
(powerbi_collector.py lines 945-991).  The accepted-answer lookup
`accepted_answers.get(question_id)` finds nothing when the question has no id
(the extraction never stores a falsy key). -/
def processQuestion (acceptedAnswers : Nat → Option AcceptedInfo)
    (userAnswers : List AnswerRec) (q : QuestionRec) : ProcessedQuestion :=
  let aa : Option AcceptedInfo :=
    match q.id with
    | none => none
    | some k => acceptedAnswers k
  let aaData := aa.map mkAcceptedAnswerData
  ⟨q.id, q.title, tagNames q.tags, q.creationDate, q.score, q.viewCount, q.answerCount,
    q.isAnswered, aaData.isSome, aaData,
    userAnswers.filter (fun a => a.questionId == q.id)⟩

/-- The denormalized user-centric record built by `process_user_data`
(powerbi_collector.py lines 1012-1058).  `Last_Updated` models
`datetime.now().isoformat()` by the epoch reading itself. -/
structure UserData where
  User_ID : Nat
  DisplayName : Option String
  Account_ID : Option Nat
  Title : Option String
  Department : Option String
  Location : Option String
  User_Type : Option String
  Reputation : ℤ
  Account_Longevity_Days : ℤ
  Creation_Date : Option Nat
  Joined_UTC : Option Nat
  Last_Login_Date : Option Nat
  Total_Questions_Asked : Nat
  Total_Questions_No_Answers : Nat
  Questions_With_Accepted_Answers : Nat
  Total_Answers_Given : Nat
  Accepted_Answers_Given : Nat
  Total_Answer_Score : ℤ
  Total_Articles_Written : Nat
  Total_Article_Views : Nat
  Total_Article_Score : ℤ
  Is_SME : Bool
  SME_Tags : List String
  Questions : List ProcessedQuestion
  Articles : List ProcessedArticle
  Answers : List ProcessedAnswer
  Last_Updated : Nat
  Data_Collection_Timestamp : Option Nat
deriving DecidableEq, Repr

/-- Embedding of `process_user_data` (powerbi_collector.py lines 916-1064).
Guards mirror the source: a falsy `user` or a falsy `user.get('id')` yield
`None`.  `now` is the clock reading, entering only through the account
longevity, `Last_Updated` and `Data_Collection_Timestamp`. -/
def process_user_data (user : Option UserRec) (userDetails : Nat → Option DetailedInfo)
    (userQuestions : List QuestionRec) (userAnswers : List AnswerRec)
    (userArticles : List ArticleRec) (acceptedAnswers : Nat → Option AcceptedInfo)
    (allSmeData : List (Nat × List Nat)) (smeCache : Nat → Option String)
    (now : Nat) : Option UserData :=
  match user with
  | none => none
  | some u =>
    match u.id with
    | none => none
    | some uid =>
      if uid = 0 then none
      else
        let dinfo := userDetails uid
        let creationDate : Option Nat :=
          match u.creationDate with
          | some c => if c = 0 then dinfo.bind DetailedInfo.creation_date else some c
          | none => dinfo.bind DetailedInfo.creation_date
        let accountLongevity := calculate_account_longevity creationDate now
        let smeTags := get_user_sme_tags uid allSmeData smeCache
        let creationDateUtc := convert_epoch_to_utc_timestamp creationDate
        let lastLoginUtc := convert_epoch_to_utc_timestamp (dinfo.bind DetailedInfo.last_access_date)
        let processedQuestions := userQuestions.map (processQuestion acceptedAnswers userAnswers)
        let processedArticles := process_articles_data userArticles
        let processedAnswers := process_answers_data userAnswers
        let rep : ℤ :=
          if u.reputation.getD 0 ≠ 0 then u.reputation.getD 0
          else
            match dinfo with
            | none => 0
            | some d => d.reputation.getD 0
        some
          { User_ID := uid
            DisplayName := u.name
            Account_ID := u.accountId
            Title := u.jobTitle
            Department := u.department
            Location := dinfo.bind DetailedInfo.location
            User_Type := u.role
            Reputation := rep
            Account_Longevity_Days := accountLongevity
            Creation_Date := creationDateUtc
            Joined_UTC := creationDateUtc
            Last_Login_Date := lastLoginUtc
            Total_Questions_Asked := userQuestions.length
            Total_Questions_No_Answers :=
              (userQuestions.filter (fun q => !(q.isAnswered.getD false))).length
            Questions_With_Accepted_Answers :=
              (userQuestions.filter (fun q => q.hasAcceptedAnswer.getD false)).length
            Total_Answers_Given := processedAnswers.length
            Accepted_Answers_Given :=
              (processedAnswers.filter (fun a => a.is_accepted)).length
            Total_Answer_Score := (processedAnswers.map ProcessedAnswer.score).sum
            Total_Articles_Written := processedArticles.length
            Total_Article_Views := (processedArticles.map ProcessedArticle.view_count).sum
            Total_Article_Score := (processedArticles.map ProcessedArticle.score).sum
            Is_SME := decide (0 < smeTags.length)
            SME_Tags := smeTags
            Questions := processedQuestions
            Articles := processedArticles
            Answers := processedAnswers
            Last_Updated := now
            Data_Collection_Timestamp := convert_epoch_to_utc_timestamp (some now) }

/-- The denormalized record with its clock-derived fields replaced by fixed
values: `Account_Longevity_Days`, `Last_Updated` and
`Data_Collection_Timestamp` are the only fields of `process_user_data` whose
value reads `datetime.now()`. -/
def UserData.clockNormalized (d : UserData) : UserData :=
  { d with Account_Longevity_Days := 0, Last_Updated := 0,
           Data_Collection_Timestamp := none }

/-! ## The knowledge-reuse paginated fetcher (knowledge-reuse-export.py 50-85)

Same page loop as the powerbi fetchers, but the `except
requests.exceptions.RequestException` handler logs and then re-raises, so a
failed page propagates out of `get_questions` instead of returning the partial
list.  `serve` answers each page with either a decoded response or the raised
exception (an opaque numeric code). -/

/-- The loop of `get_questions`: the outcome is `none` when the fuel is
exhausted, `some (.error e)` when page `page` raised, and `some (.ok items)`
when the loop broke normally. -/
def krFetchLoop (serve : Nat → Except Nat PageResp) :
    Nat → Nat → Option Nat → List Nat → Option (Except Nat (List Nat))
  | 0, _, _, _ => none
  | fuel + 1, page, tp, acc =>
    match serve page with
    | .error e => some (.error e)
    | .ok r =>
      let acc2 := acc ++ r.items
      let tp2 := tp.getD r.totalPages
      if tp2 ≤ page then some (.ok acc2)
      else krFetchLoop serve fuel (page + 1) (some tp2) acc2

/-- Embedding of `get_questions` (knowledge-reuse-export.py lines 50-85). -/
def kr_get_questions (serve : Nat → Except Nat PageResp) (fuel : Nat) :
    Option (Except Nat (List Nat)) :=
  krFetchLoop serve fuel 1 none []

/-! ## The SCIM `ErrorHandler` retry table (so4t_scim.py lines 28-86) -/

/-- The `ErrorType` enumeration (so4t_scim.py lines 18-25). -/
inductive ErrorType where
  | serverError
  | clientError
  | networkError
  | authError
  | rateLimitError
  | unknownError
deriving DecidableEq, Repr

/-- One row of `self.retry_config` (so4t_scim.py lines 40-47). -/
structure RetryConfig where
  maxRetries : Nat
  baseDelay : ℚ
  exponential : Bool
deriving DecidableEq, Repr

/-- The `retry_config` table of `ErrorHandler.__init__`
(so4t_scim.py lines 40-47). -/
def retry_config : ErrorType → RetryConfig
  | .serverError => ⟨3, 2, true⟩
  | .rateLimitError => ⟨5, 5, true⟩
  | .networkError => ⟨3, 1, true⟩
  | .clientError => ⟨1, 0, false⟩
  | .authError => ⟨0, 0, false⟩
  | .unknownError => ⟨2, 1, true⟩

/-- Embedding of `ErrorHandler.should_retry` (so4t_scim.py lines 73-76). -/
def should_retry (t : ErrorType) (attempt : Nat) : Bool :=
  attempt < (retry_config t).maxRetries

/-- Embedding of `ErrorHandler.get_delay` (so4t_scim.py lines 78-86). -/
def get_delay (t : ErrorType) (attempt : Nat) : ℚ :=
  if (retry_config t).exponential then (retry_config t).baseDelay * 2 ^ attempt
  else (retry_config t).baseDelay

/-! ## The date-range user filter (powerbi_collector.py lines 381-392, 485-513)

Calendar dates are modelled by their day index since the epoch;
`convert_date_to_epoch` (lines 193-205) parses `YYYY-MM-DD`, truncates to the
start of the day and returns the epoch value, which the model renders as
`day · 86400`.  `get_users_created_in_timeframe` sets `from_epoch =
convert_date_to_epoch(from)` and `to_epoch = convert_date_to_epoch(to) + 86400`
(line 387) and keeps a fetched v2.3 user item exactly when its
`creation_date` is truthy and lies in `[from_epoch, to_epoch]` (line 492). -/

/-- A v2.3 user item, reduced to the fields the filter reads. -/
structure V2User where
  user_id : Option Nat
  creation_date : Option Nat
deriving DecidableEq, Repr

/-- Embedding of `convert_date_to_epoch` on a day index: midnight at the start
of that day. -/
def convert_date_to_epoch (day : Nat) : Nat := day * 86400

/-- The per-item retention test of `get_users_created_in_timeframe`
(powerbi_collector.py line 492): `if creation_date and from_epoch <=
creation_date <= to_epoch`. -/
def inTimeframe (fromEpoch toEpoch : Nat) (u : V2User) : Bool :=
  match u.creation_date with
  | none => false
  | some cd => decide (cd ≠ 0) && decide (fromEpoch ≤ cd) && decide (cd ≤ toEpoch)

/-- Embedding of the filtering pass of `get_users_created_in_timeframe`
(powerbi_collector.py lines 485-513) over the v2.3 items it fetched for the
collected user ids: the retained users, in order.  `fromDay` and `toDay` are
the configured `from_date` and `to_date`. -/
def get_users_created_in_timeframe (fromDay toDay : Nat) (items : List V2User) :
    List V2User :=
  items.filter (inTimeframe (convert_date_to_epoch fromDay) (convert_date_to_epoch toDay + 86400))

/-! ## Helper lemmas -/

theorem countTok_append : ∀ l1 l2 : List Ev, countTok (l1 ++ l2) = countTok l1 + countTok l2
  | [], l2 => by simp [countTok]
  | e :: l1, l2 => by
    cases e <;> (simp [countTok, countTok_append l1 l2]; try omega)

theorem rlWaits_append : ∀ l1 l2 : List Ev, rlWaits (l1 ++ l2) = rlWaits l1 ++ rlWaits l2
  | [], l2 => by simp [rlWaits]
  | e :: l1, l2 => by
    match e with
    | .semAcquire | .semRelease | .httpRequest | .tokenConsume =>
      simp [rlWaits, rlWaits_append l1 l2]
    | .wait d b =>
      cases b <;> simp [rlWaits, rlWaits_append l1 l2]

/-- The token bucket never grants anything in any run of the retry loop: the
source of `make_api_request` contains no call to `wait_for_token`. -/
theorem countTok_runReq (rs : List Resp) : ∀ c n, countTok (runReq rs c n).trace = 0 := by
  induction rs with
  | nil => intro c n; simp [runReq, countTok]
  | cons r rest ih =>
    intro c n
    cases r with
    | ok p => simp [runReq, countTok]
    | http429 ra =>
      cases ra <;> simp [runReq, countTok_append, countTok, ih]
    | httpErr =>
      by_cases h : MAX_NON_RATE_LIMIT_RETRIES ≤ n + 1 <;>
        simp [runReq, h, countTok_append, countTok, ih]
    | timeoutExc =>
      by_cases h : MAX_NON_RATE_LIMIT_RETRIES ≤ n + 1 <;>
        simp [runReq, h, countTok_append, countTok, ih]
    | exc429 => simp [runReq, countTok_append, countTok, ih]
    | excOther =>
      by_cases h : MAX_NON_RATE_LIMIT_RETRIES ≤ n + 1 <;>
        simp [runReq, h, countTok_append, countTok, ih]

/-- Every request of the retry loop is issued under a previously acquired
burst-semaphore slot. -/
theorem coveredBy_sem_runReq (rs : List Resp) :
    ∀ c n avail, coveredBy isSemGrant (runReq rs c n).trace avail = true := by
  induction rs with
  | nil => intro c n avail; simp [runReq, coveredBy]
  | cons r rest ih =>
    intro c n avail
    cases r with
    | ok p => simp [runReq, coveredBy, isSemGrant]
    | http429 ra =>
      cases ra <;> simp [runReq, coveredBy, isSemGrant, ih]
    | httpErr =>
      by_cases h : MAX_NON_RATE_LIMIT_RETRIES ≤ n + 1 <;>
        simp [runReq, h, coveredBy, isSemGrant, ih]
    | timeoutExc =>
      by_cases h : MAX_NON_RATE_LIMIT_RETRIES ≤ n + 1 <;>
        simp [runReq, h, coveredBy, isSemGrant, ih]
    | exc429 => simp [runReq, coveredBy, isSemGrant, ih]
    | excOther =>
      by_cases h : MAX_NON_RATE_LIMIT_RETRIES ≤ n + 1 <;>
        simp [runReq, h, coveredBy, isSemGrant, ih]

/-- Value of the orchestrator's fold at a nonzero key: written if and only if
the key occurs among the inputs, and then with the oracle's value for that
key alone. -/
theorem batch_foldl_lookup (oracle : Nat → FetchOutcome) (uid : Nat) (huid : uid ≠ 0) :
    ∀ (users : List (Option Nat)) (m : Nat → Option (List Nat)),
      users.foldl (batchStep oracle) m uid =
        if some uid ∈ users then some (oracle uid).stored else m uid := by
  intro users
  induction users with
  | nil => intro m; simp
  | cons v vs ih =>
    intro m
    rw [List.foldl_cons, ih]
    match v with
    | none =>
      simp [batchStep, List.mem_cons]
    | some w =>
      by_cases hw : w = 0
      · subst hw
        have : some uid ≠ some (0 : Nat) := by simpa using huid
        simp [batchStep, List.mem_cons, this]
      · by_cases huw : uid = w
        · subst huw
          simp [batchStep, hw, List.mem_cons]
        · have : some uid ≠ some w := by simpa using huw
          simp [batchStep, hw, List.mem_cons, this, huw]

theorem find?_append_last {α : Type} (p : α → Bool) : ∀ (l : List α) (a : α),
    (l ++ [a]).find? p =
      match l.find? p with
      | some b => some b
      | none => if p a then some a else none := by
  intro l a
  induction l with
  | nil => cases hp : p a <;> simp [List.find?, hp]
  | cons x xs ih =>
    by_cases hx : p x <;> simp [List.find?_cons, hx, ih]

/-- Value of the accepted-answer fold at a nonzero question id: the projection
of the last matching answer, the accumulator's value when none matches. -/
theorem extract_foldl_lookup (q : Nat) (hq : q ≠ 0) :
    ∀ (answers : List AnswerRec) (m : Nat → Option AcceptedInfo),
      answers.foldl extractStep m q =
        match answers.reverse.find? (fun a => a.isAccepted && a.questionId == some q) with
        | some b => some b.toAcceptedInfo
        | none => m q := by
  intro answers
  induction answers with
  | nil => intro m; simp
  | cons a rest ih =>
    intro m
    rw [List.foldl_cons, ih, List.reverse_cons, find?_append_last]
    cases hfind : rest.reverse.find? (fun a => a.isAccepted && a.questionId == some q) with
    | some b => rfl
    | none =>
      show extractStep m a q = _
      by_cases hacc : a.isAccepted
      · cases hqid : a.questionId with
        | none => simp [extractStep, hacc, hqid]
        | some qa =>
          by_cases hqa0 : qa = 0
          · subst hqa0
            have hne : ((some (0 : Nat) == some q) = false) := by
              simp [Ne.symm hq]
            simp [extractStep, hacc, hqid, hne]
          · by_cases hqaq : qa = q
            · subst hqaq
              simp [extractStep, hacc, hqid, hqa0]
            · have hne : ((some qa == some q) = false) := by simp [hqaq]
              have hne2 : q ≠ qa := fun h => hqaq h.symm
              simp [extractStep, hacc, hqid, hqa0, hne, hne2]
      · simp [extractStep, hacc]

theorem one_le_backoff_pow (i : Nat) : (1 : ℚ) ≤ BACKOFF_MULTIPLIER ^ i := by
  induction i with
  | zero => norm_num
  | succ n ih =>
    rw [pow_succ]
    calc (1 : ℚ) = 1 * 1 := by norm_num
    _ ≤ BACKOFF_MULTIPLIER ^ n * BACKOFF_MULTIPLIER := by
        apply mul_le_mul ih (by norm_num [BACKOFF_MULTIPLIER]) (by norm_num)
          (le_trans zero_le_one ih)

/-- Propagating the delay cap: capping the multiplied delay before raising it
to a further power agrees with capping at the end. -/
theorem capped_backoff_shift (c : ℚ) (i : Nat) :
    min (min (c * BACKOFF_MULTIPLIER) MAX_RETRY_DELAY * BACKOFF_MULTIPLIER ^ i)
        MAX_RETRY_DELAY =
      min (c * BACKOFF_MULTIPLIER ^ (i + 1)) MAX_RETRY_DELAY := by
  rcases le_or_lt (c * BACKOFF_MULTIPLIER) MAX_RETRY_DELAY with h | h
  · rw [min_eq_left h]
    congr 1
    rw [pow_succ]; ring
  · rw [min_eq_right h.le]
    have h1 : MAX_RETRY_DELAY ≤ MAX_RETRY_DELAY * BACKOFF_MULTIPLIER ^ i := by
      calc MAX_RETRY_DELAY = MAX_RETRY_DELAY * 1 := (mul_one _).symm
      _ ≤ MAX_RETRY_DELAY * BACKOFF_MULTIPLIER ^ i :=
          mul_le_mul_of_nonneg_left (one_le_backoff_pow i) (by norm_num [MAX_RETRY_DELAY])
    have h2 : MAX_RETRY_DELAY ≤ c * BACKOFF_MULTIPLIER ^ (i + 1) := by
      have e : c * BACKOFF_MULTIPLIER ^ (i + 1)
          = c * BACKOFF_MULTIPLIER * BACKOFF_MULTIPLIER ^ i := by
        rw [pow_succ]; ring
      rw [e]
      calc MAX_RETRY_DELAY = MAX_RETRY_DELAY * 1 := (mul_one _).symm
      _ ≤ MAX_RETRY_DELAY * BACKOFF_MULTIPLIER ^ i :=
          mul_le_mul_of_nonneg_left (one_le_backoff_pow i) (by norm_num [MAX_RETRY_DELAY])
      _ ≤ c * BACKOFF_MULTIPLIER * BACKOFF_MULTIPLIER ^ i :=
          mul_le_mul_of_nonneg_right h.le (le_trans zero_le_one (one_le_backoff_pow i))
    rw [min_eq_right h1, min_eq_right h2]

/-- A run of the retry loop that sees `k` header-less 429s and then a 200
succeeds, and its rate-limit sleeps are the capped geometric sequence started
at the current delay. -/
theorem runReq_replicate_rl (p : Nat) : ∀ (k : Nat) (c : ℚ) (m : Nat), 0 ≤ c →
    (runReq (List.replicate k (.http429 none) ++ [.ok p]) c m).result = .success p ∧
    rlWaits (runReq (List.replicate k (.http429 none) ++ [.ok p]) c m).trace =
      (List.range k).map (fun i => min (c * BACKOFF_MULTIPLIER ^ i) MAX_RETRY_DELAY) := by
  intro k
  induction k with
  | zero => intro c m _; simp [runReq, rlWaits]
  | succ n ih =>
    intro c m hc
    have hc2 : (0 : ℚ) ≤ min (c * BACKOFF_MULTIPLIER) MAX_RETRY_DELAY := by
      apply le_min
      · apply mul_nonneg hc; norm_num [BACKOFF_MULTIPLIER]
      · norm_num [MAX_RETRY_DELAY]
    obtain ⟨ihr, ihw⟩ := ih (min (c * BACKOFF_MULTIPLIER) MAX_RETRY_DELAY) m hc2
    rw [List.replicate_succ, List.cons_append]
    constructor
    · simpa only [runReq] using ihr
    · simp only [runReq, rlWaits_append, rlWaits, List.append_eq, List.nil_append]
      rw [ihw, List.range_succ_eq_map, List.map_cons, List.map_map]
      congr 1
      · rw [pow_zero, mul_one]
      · apply List.map_congr_left
        intro i _
        simp only [Function.comp_apply]
        exact capped_backoff_shift c i

/-- Without any non-rate-limit outcome the retry loop never returns `None`:
429s alone never exhaust anything. -/
theorem runReq_no_gaveup_without_nonRL : ∀ (rs : List Resp) (c : ℚ) (m : Nat),
    (∀ r ∈ rs, isNonRL r = false) → (runReq rs c m).result ≠ .gaveUp := by
  intro rs
  induction rs with
  | nil => intro c m _; simp [runReq]
  | cons r rest ih =>
    intro c m h
    have hr := h r (List.mem_cons_self r rest)
    have hrest : ∀ x ∈ rest, isNonRL x = false := fun x hx => h x (List.mem_cons_of_mem r hx)
    cases r with
    | ok p => simp [runReq]
    | http429 ra => cases ra <;> simpa only [runReq] using ih _ _ hrest
    | exc429 => simpa only [runReq] using ih _ _ hrest
    | httpErr => simp [isNonRL] at hr
    | timeoutExc => simp [isNonRL] at hr
    | excOther => simp [isNonRL] at hr

/-- A present `Retry-After` header is slept exactly, and leaves the backoff
state (delay and failure counter) unchanged for the rest of the run. -/
theorem rlWaits_retry_after (ra : ℚ) (rest : List Resp) (c : ℚ) (m : Nat) :
    rlWaits (runReq (.http429 (some ra) :: rest) c m).trace =
      ra :: rlWaits (runReq rest c m).trace := by
  simp [runReq, rlWaits_append, rlWaits]

theorem rlDelay_mono (n : Nat) : rlDelay n ≤ rlDelay (n + 1) := by
  unfold rlDelay
  apply min_le_min _ le_rfl
  apply mul_le_mul_of_nonneg_left _ (by norm_num [MIN_RETRY_DELAY])
  calc BACKOFF_MULTIPLIER ^ n = BACKOFF_MULTIPLIER ^ n * 1 := (mul_one _).symm
  _ ≤ BACKOFF_MULTIPLIER ^ n * BACKOFF_MULTIPLIER :=
      mul_le_mul_of_nonneg_left (by norm_num [BACKOFF_MULTIPLIER])
        (le_trans zero_le_one (one_le_backoff_pow n))
  _ = BACKOFF_MULTIPLIER ^ (n + 1) := (pow_succ _ _).symm

/-- The non-429 failure budget: starting from failure count `m ≤ 2`, a run
consumes at most `3 - m` further non-rate-limit outcomes, and returns `None`
exactly when the count of consumed non-rate-limit outcomes reaches 3. -/
theorem runReq_nonRL_budget : ∀ (rs : List Resp) (c : ℚ) (m : Nat), m ≤ 2 →
    m + (rs.take (runReq rs c m).consumed).countP isNonRL ≤ 3 ∧
    ((runReq rs c m).result = .gaveUp →
      m + (rs.take (runReq rs c m).consumed).countP isNonRL = 3) := by
  intro rs
  induction rs with
  | nil =>
    intro c m hm
    constructor
    · simp [runReq]; omega
    · intro h; simp [runReq] at h
  | cons r rest ih =>
    intro c m hm
    cases r with
    | ok p =>
      constructor
      · simp [runReq, List.countP_cons, isNonRL]; omega
      · intro h; simp [runReq] at h
    | http429 ra =>
      cases ra with
      | some w =>
        obtain ⟨ihb, ihg⟩ := ih c m hm
        simp only [runReq, List.take_succ_cons, List.countP_cons, isNonRL]
        constructor
        · exact ihb
        · intro h; exact ihg h
      | none =>
        obtain ⟨ihb, ihg⟩ :=
          ih (min (c * BACKOFF_MULTIPLIER) MAX_RETRY_DELAY) m hm
        simp only [runReq, List.take_succ_cons, List.countP_cons, isNonRL]
        constructor
        · exact ihb
        · intro h; exact ihg h
    | exc429 =>
      obtain ⟨ihb, ihg⟩ :=
        ih (min (c * BACKOFF_MULTIPLIER) MAX_RETRY_DELAY) m hm
      simp only [runReq, List.take_succ_cons, List.countP_cons, isNonRL]
      constructor
      · exact ihb
      · intro h; exact ihg h
    | httpErr =>
      by_cases h3 : MAX_NON_RATE_LIMIT_RETRIES ≤ m + 1
      · simp only [MAX_NON_RATE_LIMIT_RETRIES] at h3
        constructor
        · simp [runReq, MAX_NON_RATE_LIMIT_RETRIES, h3, List.countP_cons, isNonRL]; omega
        · intro _; simp [runReq, MAX_NON_RATE_LIMIT_RETRIES, h3, List.countP_cons, isNonRL]
          omega
      · simp only [MAX_NON_RATE_LIMIT_RETRIES] at h3
        obtain ⟨ihb, ihg⟩ := ih c (m + 1) (by omega)
        simp only [runReq, MAX_NON_RATE_LIMIT_RETRIES, if_neg (by omega : ¬(3 ≤ m + 1)),
          List.take_succ_cons, List.countP_cons, isNonRL]
        constructor
        · rw [if_pos trivial]; omega
        · intro h
          have := ihg h
          rw [if_pos trivial]; omega
    | timeoutExc =>
      by_cases h3 : MAX_NON_RATE_LIMIT_RETRIES ≤ m + 1
      · simp only [MAX_NON_RATE_LIMIT_RETRIES] at h3
        constructor
        · simp [runReq, MAX_NON_RATE_LIMIT_RETRIES, h3, List.countP_cons, isNonRL]; omega
        · intro _; simp [runReq, MAX_NON_RATE_LIMIT_RETRIES, h3, List.countP_cons, isNonRL]
          omega
      · simp only [MAX_NON_RATE_LIMIT_RETRIES] at h3
        obtain ⟨ihb, ihg⟩ := ih c (m + 1) (by omega)
        simp only [runReq, MAX_NON_RATE_LIMIT_RETRIES, if_neg (by omega : ¬(3 ≤ m + 1)),
          List.take_succ_cons, List.countP_cons, isNonRL]
        constructor
        · rw [if_pos trivial]; omega
        · intro h
          have := ihg h
          rw [if_pos trivial]; omega
    | excOther =>
      by_cases h3 : MAX_NON_RATE_LIMIT_RETRIES ≤ m + 1
      · simp only [MAX_NON_RATE_LIMIT_RETRIES] at h3
        constructor
        · simp [runReq, MAX_NON_RATE_LIMIT_RETRIES, h3, List.countP_cons, isNonRL]; omega
        · intro _; simp [runReq, MAX_NON_RATE_LIMIT_RETRIES, h3, List.countP_cons, isNonRL]
          omega
      · simp only [MAX_NON_RATE_LIMIT_RETRIES] at h3
        obtain ⟨ihb, ihg⟩ := ih c (m + 1) (by omega)
        simp only [runReq, MAX_NON_RATE_LIMIT_RETRIES, if_neg (by omega : ¬(3 ≤ m + 1)),
          List.take_succ_cons, List.countP_cons, isNonRL]
        constructor
        · rw [if_pos trivial]; omega
        · intro h
          have := ihg h
          rw [if_pos trivial]; omega

/-- Every sleep of the non-429 retry paths lasts exactly 1 second. -/
theorem runReq_nonRL_wait_one : ∀ (rs : List Resp) (c : ℚ) (m : Nat) (d : ℚ),
    Ev.wait d false ∈ (runReq rs c m).trace → d = 1 := by
  intro rs
  induction rs with
  | nil => intro c m d h; simp [runReq] at h
  | cons r rest ih =>
    intro c m d h
    cases r with
    | ok p => simp [runReq] at h
    | http429 ra =>
      cases ra with
      | some w =>
        simp only [runReq, List.cons_append, List.nil_append, List.mem_cons,
          List.mem_append] at h
        rcases h with h | h | h | h | h
        · cases h
        · cases h
        · simp at h
        · cases h
        · exact ih _ _ _ h
      | none =>
        simp only [runReq, List.cons_append, List.nil_append, List.mem_cons,
          List.mem_append] at h
        rcases h with h | h | h | h | h
        · cases h
        · cases h
        · simp at h
        · cases h
        · exact ih _ _ _ h
    | exc429 =>
      simp only [runReq, List.cons_append, List.nil_append, List.mem_cons,
        List.mem_append] at h
      rcases h with h | h | h | h | h
      · cases h
      · cases h
      · cases h
      · simp at h
      · exact ih _ _ _ h
    | httpErr =>
      by_cases h3 : MAX_NON_RATE_LIMIT_RETRIES ≤ m + 1
      · simp [runReq, h3] at h
      · simp only [runReq, if_neg h3, List.cons_append, List.nil_append, List.mem_cons,
          List.mem_append] at h
        rcases h with h | h | h | h | h
        · cases h
        · cases h
        · exact (Ev.wait.injEq _ _ _ _).mp h |>.1
        · cases h
        · exact ih _ _ _ h
    | timeoutExc =>
      by_cases h3 : MAX_NON_RATE_LIMIT_RETRIES ≤ m + 1
      · simp [runReq, h3] at h
      · simp only [runReq, if_neg h3, List.cons_append, List.nil_append, List.mem_cons,
          List.mem_append] at h
        rcases h with h | h | h | h | h
        · cases h
        · cases h
        · cases h
        · exact (Ev.wait.injEq _ _ _ _).mp h |>.1
        · exact ih _ _ _ h
    | excOther =>
      by_cases h3 : MAX_NON_RATE_LIMIT_RETRIES ≤ m + 1
      · simp [runReq, h3] at h
      · simp only [runReq, if_neg h3, List.cons_append, List.nil_append, List.mem_cons,
          List.mem_append] at h
        rcases h with h | h | h | h | h
        · cases h
        · cases h
        · cases h
        · exact (Ev.wait.injEq _ _ _ _).mp h |>.1
        · exact ih _ _ _ h

/-- Three consecutive non-rate-limit failures from a fresh call exhaust the
retry budget: the call returns `None` after consuming exactly those three. -/
theorem runReq_three_nonRL (r1 r2 r3 : Resp) (rest : List Resp) (c : ℚ)
    (h1 : isNonRL r1 = true) (h2 : isNonRL r2 = true) (h3 : isNonRL r3 = true) :
    (runReq (r1 :: r2 :: r3 :: rest) c 0).result = .gaveUp ∧
    (runReq (r1 :: r2 :: r3 :: rest) c 0).consumed = 3 := by
  cases r1 <;> simp [isNonRL] at h1
  all_goals cases r2 <;> simp [isNonRL] at h2
  all_goals cases r3 <;> simp [isNonRL] at h3
  all_goals simp [runReq, MAX_NON_RATE_LIMIT_RETRIES]

/-- The outer refill of `wait_for_token` preserves the quota invariant. -/
theorem refillStep_inv (s : BucketState) (now : Nat) (h : BucketInv s) :
    BucketInv (TokenBucket.refillStep s now) := by
  simp only [TokenBucket.refillStep]
  split
  · constructor
    · apply le_min
      · norm_num [TOKEN_BUCKET_MAX]
      · have h1 := h.1
        have h2 : (0 : ℤ) ≤ ((now - s.lastRefill) / TOKEN_BUCKET_REFILL_INTERVAL : Nat)
            * TOKEN_BUCKET_REFILL_RATE := by
          apply mul_nonneg (Nat.cast_nonneg _)
          norm_num [TOKEN_BUCKET_REFILL_RATE]
        linarith
    · exact min_le_left _ _
  · exact h

/-- The empty-bucket loop of `wait_for_token` preserves the invariant and
only returns states with a strictly positive token count. -/
theorem waitLoop_inv : ∀ (wakes : List Nat) (s s1 : BucketState), BucketInv s →
    TokenBucket.waitLoop s wakes = some s1 → BucketInv s1 ∧ 0 < s1.tokens := by
  intro wakes
  induction wakes with
  | nil =>
    intro s s1 hs h
    by_cases hp : 0 < s.tokens
    · simp only [TokenBucket.waitLoop, if_pos hp, Option.some.injEq] at h
      subst h
      exact ⟨hs, hp⟩
    · simp only [TokenBucket.waitLoop, if_neg hp] at h
      exact Option.noConfusion h
  | cons w rest ih =>
    intro s s1 hs h
    by_cases hp : 0 < s.tokens
    · simp only [TokenBucket.waitLoop, if_pos hp, Option.some.injEq] at h
      subst h
      exact ⟨hs, hp⟩
    · simp only [TokenBucket.waitLoop, if_neg hp] at h
      by_cases hw : TOKEN_BUCKET_REFILL_INTERVAL ≤ w - s.lastRefill
      · rw [if_pos hw] at h
        refine ih _ _ ?_ h
        constructor
        · apply le_min
          · norm_num [TOKEN_BUCKET_MAX]
          · have h1 := hs.1
            have h2 : (0 : ℤ) ≤ TOKEN_BUCKET_REFILL_RATE := by
              norm_num [TOKEN_BUCKET_REFILL_RATE]
            linarith
        · exact min_le_left _ _
      · rw [if_neg hw] at h
        exact ih _ _ hs h

/-- One completed `wait_for_token` call preserves the quota invariant. -/
theorem wait_for_token_inv (s : BucketState) (now : Nat) (wakes : List Nat)
    (s2 : BucketState) (hs : BucketInv s)
    (h : TokenBucket.wait_for_token s now wakes = some s2) : BucketInv s2 := by
  unfold TokenBucket.wait_for_token at h
  cases hw : TokenBucket.waitLoop (TokenBucket.refillStep s now) wakes with
  | none => rw [hw] at h; cases h
  | some s1 =>
    rw [hw] at h
    obtain ⟨hinv, hpos⟩ := waitLoop_inv wakes _ s1 (refillStep_inv s now hs) hw
    cases h
    constructor
    · have := hinv.1
      simp only []
      omega
    · have h2 := hinv.2
      simp only [BucketInv, TOKEN_BUCKET_MAX] at h2 ⊢
      omega

/-- Any sequence of completed `wait_for_token` calls preserves the quota
invariant. -/
theorem runCalls_inv : ∀ (calls : List (Nat × List Nat)) (s s2 : BucketState),
    BucketInv s → TokenBucket.runCalls s calls = some s2 → BucketInv s2 := by
  intro calls
  induction calls with
  | nil =>
    intro s s2 hs h
    simp only [TokenBucket.runCalls, Option.some.injEq] at h
    subst h
    exact hs
  | cons c cs ih =>
    intro s s2 hs h
    rw [TokenBucket.runCalls] at h
    cases hw : TokenBucket.wait_for_token s c.1 c.2 with
    | none => rw [hw] at h; cases h
    | some s1 =>
      rw [hw] at h
      exact ih s1 s2 (wait_for_token_inv s c.1 c.2 s1 hs hw) h

/-- Once `total_pages` is fixed at `k`, a loop whose oracle serves every page
from the current one through `k` walks exactly those pages in order,
appending their items and logging one request per page. -/
theorem fetchLoop_success (serve : Nat → Option PageResp) (pages : Nat → PageResp) (k : Nat) :
    ∀ (fuel page : Nat) (acc reqs : List Nat), page ≤ k → k - page < fuel →
      (∀ p, page ≤ p → p ≤ k → serve p = some (pages p)) →
      fetchLoop serve fuel page (some k) acc reqs =
        some (acc ++ ((List.range (k + 1 - page)).map (fun i => (pages (page + i)).items)).flatten,
              reqs ++ (List.range (k + 1 - page)).map (fun i => page + i)) := by
  intro fuel
  induction fuel with
  | zero => intro page acc reqs hpk hf _; omega
  | succ f ih =>
    intro page acc reqs hpk hf hserve
    have hsp := hserve page le_rfl hpk
    by_cases hkp : k ≤ page
    · have hpage : page = k := le_antisymm hpk hkp
      subst hpage
      simp only [fetchLoop, hsp, Option.getD_some, if_pos le_rfl]
      have h1 : page + 1 - page = 1 := by omega
      rw [h1]
      have hr1 : List.range 1 = [0] := rfl
      simp [hr1]
    · have hlt : page < k := lt_of_not_ge hkp
      rw [show (fetchLoop serve (f + 1) page (some k) acc reqs)
            = fetchLoop serve f (page + 1) (some k) (acc ++ (pages page).items)
                (reqs ++ [page]) from by
        simp only [fetchLoop, hsp, Option.getD_some, if_neg hkp]]
      rw [ih (page + 1) (acc ++ (pages page).items) (reqs ++ [page]) (by omega) (by omega)
        (fun p hp1 hp2 => hserve p (by omega) hp2)]
      have hn : k + 1 - page = (k - page) + 1 := by omega
      have hn2 : k + 1 - (page + 1) = k - page := by omega
      rw [hn, hn2, List.range_succ_eq_map, List.map_cons, List.map_cons, List.map_map,
        List.map_map, List.flatten_cons]
      simp only [Option.some.injEq, Prod.mk.injEq, Nat.add_zero, List.append_assoc,
        List.singleton_append]
      constructor
      · congr 1
        congr 1
        apply congrArg List.flatten
        apply List.map_congr_left
        intro i _
        simp only [Function.comp_apply]
        exact congrArg (fun x => (pages x).items) (by omega : page + 1 + i = page + (i + 1))
      · congr 1
        congr 1
        apply List.map_congr_left
        intro i _
        simp only [Function.comp_apply]
        omega

/-- When the oracle serves pages up to `n - 1` and fails terminally at page
`n ≤ total_pages`, the loop stops at `n` with the items of the pages before
it, having requested pages through `n`. -/
theorem fetchLoop_fail (serve : Nat → Option PageResp) (pages : Nat → PageResp) (k n : Nat) :
    ∀ (fuel page : Nat) (acc reqs : List Nat), page ≤ n → n ≤ k → n - page < fuel →
      (∀ p, page ≤ p → p < n → serve p = some (pages p)) →
      serve n = none →
      fetchLoop serve fuel page (some k) acc reqs =
        some (acc ++ ((List.range (n - page)).map (fun i => (pages (page + i)).items)).flatten,
              reqs ++ (List.range (n + 1 - page)).map (fun i => page + i)) := by
  intro fuel
  induction fuel with
  | zero => intro page acc reqs hpn hnk hf _ _; omega
  | succ f ih =>
    intro page acc reqs hpn hnk hf hserve hfail
    by_cases hpe : page = n
    · subst hpe
      simp only [fetchLoop, hfail]
      have h1 : page - page = 0 := by omega
      have h2 : page + 1 - page = 1 := by omega
      rw [h1, h2]
      have hr1 : List.range 1 = [0] := rfl
      simp [hr1]
    · have hlt : page < n := lt_of_le_of_ne hpn hpe
      have hsp := hserve page le_rfl hlt
      rw [show (fetchLoop serve (f + 1) page (some k) acc reqs)
            = fetchLoop serve f (page + 1) (some k) (acc ++ (pages page).items)
                (reqs ++ [page]) from by
        simp only [fetchLoop, hsp, Option.getD_some, if_neg (by omega : ¬ k ≤ page)]]
      rw [ih (page + 1) (acc ++ (pages page).items) (reqs ++ [page]) (by omega) hnk (by omega)
        (fun p hp1 hp2 => hserve p (by omega) hp2) hfail]
      have hn1 : n - page = (n - (page + 1)) + 1 := by omega
      have hn2 : n + 1 - page = (n + 1 - (page + 1)) + 1 := by omega
      rw [hn1, hn2, List.range_succ_eq_map, List.range_succ_eq_map, List.map_cons,
        List.map_cons, List.map_map, List.map_map, List.flatten_cons]
      simp only [Option.some.injEq, Prod.mk.injEq, Nat.add_zero, List.append_assoc,
        List.singleton_append]
      constructor
      · congr 1
        congr 1
        apply congrArg List.flatten
        apply List.map_congr_left
        intro i _
        simp only [Function.comp_apply]
        exact congrArg (fun x => (pages x).items)
          (by omega : page + 1 + i = page + (i + 1))
      · congr 1
        congr 1
        apply List.map_congr_left
        intro i _
        simp only [Function.comp_apply]
        omega

/-! ## Claim theorems -/

/-- C1: the spec claims every outbound API call first consumes one token from
the shared token bucket, in addition to the burst-gate semaphore.  The code
defines `TokenBucket` and the global `TOKEN_BUCKET` but never calls
`wait_for_token`: a run of `make_api_request` against a single 200 response
issues one HTTP request with zero token-bucket consumptions — its trace is
not covered by token grants — while every run of the loop is covered by
burst-semaphore grants, and no run ever consumes a token. -/
theorem C1_budget_gate_never_consulted :
    (make_api_request [Resp.ok 7]).result = .success 7 ∧
    countHttp (make_api_request [Resp.ok 7]).trace = 1 ∧
    coveredBy isTokenGrant (make_api_request [Resp.ok 7]).trace 0 = false ∧
    (∀ rs c n, countTok (runReq rs c n).trace = 0) ∧
    (∀ rs c n avail, coveredBy isSemGrant (runReq rs c n).trace avail = true) :=
  ⟨by decide, by decide, by decide, countTok_runReq, coveredBy_sem_runReq⟩

/-- C2 counterexample: the claim covers every call of the system, but the
SCIM `ErrorHandler` puts a ceiling of 5 on rate-limit retries — at attempt 5 a
429 is not retried and `_retry_request` re-raises, abandoning the call — and
its second rate-limit delay is `5 · 2^1 = 10` seconds, not the claimed
`min (5 · 1.5^1) 300 = 7.5`. -/
theorem C2_counterexample :
    should_retry .rateLimitError 5 = false ∧
    get_delay .rateLimitError 1 = 10 ∧
    rlDelay 1 = 15 / 2 ∧
    (10 : ℚ) ≠ 15 / 2 := by
  refine ⟨by decide, ?_, ?_, by norm_num⟩
  · norm_num [get_delay, retry_config]
  · show min (MIN_RETRY_DELAY * BACKOFF_MULTIPLIER ^ 1) MAX_RETRY_DELAY = 15 / 2
    rw [min_eq_left (by norm_num [MIN_RETRY_DELAY, BACKOFF_MULTIPLIER, MAX_RETRY_DELAY])]
    norm_num [MIN_RETRY_DELAY, BACKOFF_MULTIPLIER]

/-- C2 (amended): in `make_api_request` (powerbi_collector.py) a 429 outcome
is retried without bound — a run that sees `k` header-less 429s and then a
200 succeeds for every `k`, its n-th rate-limit sleep is exactly
`min (5 · 1.5^(n-1)) 300` seconds, non-decreasing in n, a `Retry-After` value
is slept exactly and leaves the backoff state unchanged, and no run without
non-429 failures ever returns `None`; in so4t_scim.py, however, the
`ErrorHandler` caps rate-limit retries at 5 attempts with delay
`5 · 2^attempt`. -/
theorem C2_rate_limit_retry_amended (k n attempt p : Nat) (ra c : ℚ) (rest rs : List Resp)
    (m : Nat) (hrs : ∀ r ∈ rs, isNonRL r = false) :
    (make_api_request (List.replicate k (.http429 none) ++ [.ok p])).result = .success p ∧
    rlWaits (make_api_request (List.replicate k (.http429 none) ++ [.ok p])).trace =
      (List.range k).map rlDelay ∧
    rlDelay n ≤ rlDelay (n + 1) ∧
    rlWaits (runReq (.http429 (some ra) :: rest) c m).trace =
      ra :: rlWaits (runReq rest c m).trace ∧
    (runReq rs c m).result ≠ .gaveUp ∧
    should_retry .rateLimitError 5 = false ∧
    should_retry .rateLimitError 4 = true ∧
    get_delay .rateLimitError attempt = 5 * 2 ^ attempt := by
  obtain ⟨h1, h2⟩ :=
    runReq_replicate_rl p k MIN_RETRY_DELAY 0 (by norm_num [MIN_RETRY_DELAY])
  exact ⟨h1, h2, rlDelay_mono n, rlWaits_retry_after ra rest c m,
    runReq_no_gaveup_without_nonRL rs c m hrs, by decide, by decide,
    by norm_num [get_delay, retry_config]⟩

/-- C2 witness: three header-less 429s then a 200 produce the delays
`5, 7.5, 11.25` and succeed. -/
theorem C2_rate_limit_retry_amended_witness :
    (make_api_request (List.replicate 3 (.http429 none) ++ [.ok 5])).result = .success 5 ∧
    rlWaits (make_api_request (List.replicate 3 (.http429 none) ++ [.ok 5])).trace =
      (List.range 3).map rlDelay :=
  have h := C2_rate_limit_retry_amended 3 0 0 5 1 1 [] [] 0 (by intro r hr; cases hr)
  ⟨h.1, h.2.1⟩

/-- C7: across one call of `make_api_request`, at most 3 non-rate-limit
outcomes (other HTTP statuses, timeouts, other exceptions) are ever consumed;
the call returns `None` exactly when that count reaches 3; each
non-rate-limit retry sleeps exactly 1 second; and three consecutive such
failures on a fresh call return `None` after consuming exactly those three.
-/
theorem C7_bounded_non_rate_limit_retries (rs : List Resp) (c d : ℚ) (m : Nat)
    (r1 r2 r3 : Resp) (rest : List Resp) (hm : m ≤ 2)
    (h1 : isNonRL r1 = true) (h2 : isNonRL r2 = true) (h3 : isNonRL r3 = true) :
    m + (rs.take (runReq rs c m).consumed).countP isNonRL ≤ 3 ∧
    ((runReq rs c m).result = .gaveUp →
      m + (rs.take (runReq rs c m).consumed).countP isNonRL = 3) ∧
    (Ev.wait d false ∈ (runReq rs c m).trace → d = 1) ∧
    (make_api_request (r1 :: r2 :: r3 :: rest)).result = .gaveUp ∧
    (make_api_request (r1 :: r2 :: r3 :: rest)).consumed = 3 := by
  obtain ⟨hb, hg⟩ := runReq_nonRL_budget rs c m hm
  obtain ⟨ht1, ht2⟩ := runReq_three_nonRL r1 r2 r3 rest MIN_RETRY_DELAY h1 h2 h3
  exact ⟨hb, hg, runReq_nonRL_wait_one rs c m d, ht1, ht2⟩

/-- C7 witness: three straight server errors exhaust the budget and the call
returns `None` having consumed exactly three outcomes. -/
theorem C7_bounded_non_rate_limit_retries_witness :
    (make_api_request [Resp.httpErr, Resp.httpErr, Resp.httpErr]).result = .gaveUp ∧
    (make_api_request [Resp.httpErr, Resp.httpErr, Resp.httpErr]).consumed = 3 :=
  have h := C7_bounded_non_rate_limit_retries [] 5 1 0 .httpErr .httpErr .httpErr []
    (by omega) (by decide) (by decide) (by decide)
  ⟨h.2.2.2.1, h.2.2.2.2⟩

/-- C3: when the first page's response fixes `totalPages = k ≥ 1` and every
page through `k` eventually succeeds, the fetch loop terminates within `k`
iterations and returns exactly the concatenation of the items of pages 1
through `k` in page order, requesting each page exactly once (the request log
is `[1, …, k]`, without duplicates); later pages' `totalPages` values are
never consulted. -/
theorem C3_pagination_completeness (serve : Nat → Option PageResp) (pages : Nat → PageResp)
    (k fuel : Nat) (hk : 1 ≤ k) (hfuel : k ≤ fuel)
    (hserve : ∀ p, 1 ≤ p → p ≤ k → serve p = some (pages p))
    (htp : (pages 1).totalPages = k) :
    get_questions_for_user serve fuel =
      some (((List.range k).map (fun i => (pages (1 + i)).items)).flatten,
            (List.range k).map (fun i => 1 + i)) ∧
    ((List.range k).map (fun i => 1 + i)).Nodup := by
  constructor
  · obtain ⟨f, rfl⟩ : ∃ f, fuel = f + 1 := ⟨fuel - 1, by omega⟩
    have hs1 := hserve 1 le_rfl hk
    rw [get_questions_for_user]
    have step1 : fetchLoop serve (f + 1) 1 none [] [] =
        if k ≤ 1 then some ([] ++ (pages 1).items, [] ++ [1])
        else fetchLoop serve f (1 + 1) (some k) ([] ++ (pages 1).items) ([] ++ [1]) := by
      simp only [fetchLoop, hs1, Option.getD_none, htp]
    rw [step1]
    by_cases hk1 : k ≤ 1
    · have hke : k = 1 := le_antisymm hk1 hk
      subst hke
      rw [if_pos le_rfl]
      have hr1 : List.range 1 = [0] := rfl
      simp [hr1]
    · rw [if_neg hk1,
        fetchLoop_success serve pages k f (1 + 1) ([] ++ (pages 1).items) ([] ++ [1])
          (by omega) (by omega) (fun p hp1 hp2 => hserve p (by omega) hp2)]
      have hn : k + 1 - (1 + 1) = k - 1 := by omega
      have hk2 : k = (k - 1) + 1 := by omega
      rw [hn]
      conv_rhs => rw [hk2]
      simp only [List.range_succ_eq_map, List.map_cons, List.map_map, List.flatten_cons,
        List.nil_append, List.singleton_append, Option.some.injEq, Prod.mk.injEq,
        Nat.add_zero]
      constructor
      · congr 1
        apply congrArg List.flatten
        apply List.map_congr_left
        intro i _
        simp only [Function.comp_apply]
        exact congrArg (fun x => (pages x).items) (by omega : 1 + 1 + i = 1 + (i + 1))
      · congr 1
        apply List.map_congr_left
        intro i _
        simp only [Function.comp_apply]
        omega
  · refine List.Nodup.map ?_ (List.nodup_range k)
    intro a b h
    have h2 : 1 + a = 1 + b := h
    omega

/-- C3 witness: two pages of two items each, `totalPages = 2`, fuel 2. -/
theorem C3_pagination_completeness_witness :
    get_questions_for_user (fun p => some ⟨[10 * p, 10 * p + 1], 2⟩) 2 =
      some ([10, 11, 20, 21], [1, 2]) :=
  ((C3_pagination_completeness (fun p => some ⟨[10 * p, 10 * p + 1], 2⟩)
      (fun p => ⟨[10 * p, 10 * p + 1], 2⟩) 2 2 (by decide) (by decide)
      (fun p h1 h2 => rfl) rfl).1).trans (by decide)

/-- C5 counterexample: in knowledge-reuse-export.py a terminal failure on the
very first page of `get_questions` re-raises the request exception — the
fetch produces the propagated error, not the empty item list the claim
requires. -/
theorem C5_counterexample :
    kr_get_questions (fun _ => Except.error 0) 5 = some (Except.error 0) ∧
    some (Except.error 0 : Except Nat (List Nat)) ≠ some (Except.ok ([] : List Nat)) := by
  exact ⟨rfl, by simp⟩

/-- C5 (amended): the powerbi fetch loop does satisfy the claim — a terminal
page failure at page `n ≤ totalPages` ends the loop with the items of pages 1
through `n - 1` and no propagated error, and a terminal failure on page 1
yields the empty item list — while the knowledge-reuse `get_questions`
re-raises instead (see the counterexample). -/
theorem C5_partial_failure_amended (serve serveF : Nat → Option PageResp)
    (pages : Nat → PageResp) (n k fuel fuel2 : Nat) (hn : 2 ≤ n) (hnk : n ≤ k)
    (hfuel : n ≤ fuel)
    (hserve : ∀ p, 1 ≤ p → p < n → serve p = some (pages p))
    (hfail : serve n = none) (htp : (pages 1).totalPages = k)
    (hF : serveF 1 = none) :
    get_questions_for_user serve fuel =
      some (((List.range (n - 1)).map (fun i => (pages (1 + i)).items)).flatten,
            (List.range n).map (fun i => 1 + i)) ∧
    get_questions_for_user serveF (fuel2 + 1) = some ([], [1]) := by
  constructor
  · obtain ⟨f, rfl⟩ : ∃ f, fuel = f + 1 := ⟨fuel - 1, by omega⟩
    have hs1 := hserve 1 le_rfl (by omega)
    rw [get_questions_for_user]
    have step1 : fetchLoop serve (f + 1) 1 none [] [] =
        fetchLoop serve f (1 + 1) (some k) ([] ++ (pages 1).items) ([] ++ [1]) := by
      simp only [fetchLoop, hs1, Option.getD_none, htp, if_neg (by omega : ¬ k ≤ 1)]
    rw [step1,
      fetchLoop_fail serve pages k n f (1 + 1) ([] ++ (pages 1).items) ([] ++ [1])
        (by omega) hnk (by omega) (fun p hp1 hp2 => hserve p (by omega) hp2) hfail]
    have e1 : n - 1 = (n - (1 + 1)) + 1 := by omega
    have e2 : n + 1 - (1 + 1) = n - 1 := by omega
    have e3 : n = (n - 1) + 1 := by omega
    have er1 : List.range (n - 1) = 0 :: (List.range (n - (1 + 1))).map Nat.succ := by
      conv_lhs => rw [e1]
      rw [List.range_succ_eq_map]
    have er2 : List.range n = 0 :: (List.range (n - 1)).map Nat.succ := by
      conv_lhs => rw [e3]
      rw [List.range_succ_eq_map]
    rw [e2]
    conv_rhs => rw [er1, er2]
    simp only [List.map_cons, List.map_map, List.flatten_cons, List.nil_append,
      List.singleton_append, Option.some.injEq, Prod.mk.injEq, Nat.add_zero]
    constructor
    · congr 1
      apply congrArg List.flatten
      apply List.map_congr_left
      intro i _
      simp only [Function.comp_apply]
      exact congrArg (fun x => (pages x).items) (by omega : 1 + 1 + i = 1 + (i + 1))
    · congr 1
      apply List.map_congr_left
      intro i _
      simp only [Function.comp_apply]
      omega
  · rw [get_questions_for_user]
    simp [fetchLoop, hF]

/-- C5 witness: with pages `[1]` served, a terminal failure at page 2 of 3
returns page 1's items, and a first-page failure returns the empty list. -/
theorem C5_partial_failure_amended_witness :
    get_questions_for_user (fun p => if p = 2 then none else some ⟨[p], 3⟩) 2 =
      some ([1], [1, 2]) ∧
    get_questions_for_user (fun _ => (none : Option PageResp)) 1 = some ([], [1]) :=
  have h := C5_partial_failure_amended (fun p => if p = 2 then none else some ⟨[p], 3⟩)
    (fun _ => none) (fun p => ⟨[p], 3⟩) 2 3 2 0 (by decide) (by decide) (by decide)
    (fun p h1 h2 => by
      have hp : p = 1 := by omega
      subst hp
      rfl)
    rfl rfl rfl
  ⟨h.1.trans (by decide), h.2⟩

/-- C4: the batch orchestrator's result map has exactly one entry for every
truthy input id, holding that id's own outcome (the question list on success,
`[]` when the task raised); an entry depends only on its own id's outcome, so
one item's exception leaves every other item's entry unchanged. -/
theorem C4_batch_partial_failure (users : List (Option Nat))
    (oracle oracle2 : Nat → FetchOutcome) (uid : Nat) (huid : uid ≠ 0) :
    ((fetch_questions_batch users oracle uid).isSome ↔ some uid ∈ users) ∧
    (some uid ∈ users →
      fetch_questions_batch users oracle uid = some (oracle uid).stored) ∧
    (some uid ∈ users → oracle uid = .err →
      fetch_questions_batch users oracle uid = some []) ∧
    (oracle2 uid = oracle uid →
      fetch_questions_batch users oracle2 uid = fetch_questions_batch users oracle uid) := by
  have h1 := batch_foldl_lookup oracle uid huid users (fun _ => none)
  have h2 := batch_foldl_lookup oracle2 uid huid users (fun _ => none)
  unfold fetch_questions_batch
  refine ⟨?_, ?_, ?_, ?_⟩
  · rw [h1]; by_cases hmem : some uid ∈ users <;> simp [hmem]
  · intro hmem; rw [h1, if_pos hmem]
  · intro hmem herr; rw [h1, if_pos hmem, herr]; rfl
  · intro heq; rw [h1, h2, heq]

/-- C4 witness: in a three-user batch whose middle id raises, the map still
answers for that id, with the empty list. -/
theorem C4_batch_partial_failure_witness :
    fetch_questions_batch [some 1, some 2, some 3]
      (fun u => if u = 2 then .err else .ok [u]) 2 = some [] :=
  (C4_batch_partial_failure [some 1, some 2, some 3]
      (fun u => if u = 2 then .err else .ok [u])
      (fun u => if u = 2 then .err else .ok [u]) 2 (by decide)).2.2.1
    (by decide) (by decide)

/-- C6 counterexample: after 90 seconds (1.5 refill intervals) the refill
adds one whole interval of tokens but sets `last_refill` to the current
reading, 90 — not to the claimed whole-interval advance `0 + 1·60 = 60` —
silently discarding the half interval of elapsed progress. -/
theorem C6_counterexample :
    (TokenBucket.refillStep ⟨4000, 0⟩ 90).lastRefill = 90 ∧
    (TokenBucket.refillStep ⟨4000, 0⟩ 90).tokens = 4100 ∧
    (TokenBucket.refillStep ⟨4000, 0⟩ 90).lastRefill ≠
      0 + ((90 - 0) / TOKEN_BUCKET_REFILL_INTERVAL) * TOKEN_BUCKET_REFILL_INTERVAL := by
  refine ⟨by decide, by decide, by decide⟩

/-- C6 (amended): the bucket starts inside `0 ≤ tokens ≤ maxTokens`; every
sequence of completed `wait_for_token` calls keeps the state inside it; when
at least one whole interval has elapsed the refill adds
`⌊elapsed / interval⌋ · refillRate` tokens capped at `maxTokens` and sets
`lastRefillAt` to the observed current time (not to a whole-interval
advance); with less than one whole interval elapsed the state is untouched.
-/
theorem C6_token_bucket_invariant_amended (s s2 : BucketState)
    (calls : List (Nat × List Nat)) (t0 now : Nat) (hs : BucketInv s)
    (hrun : TokenBucket.runCalls s calls = some s2)
    (hel : TOKEN_BUCKET_REFILL_INTERVAL ≤ now - s.lastRefill) :
    BucketInv (TokenBucket.init t0) ∧
    BucketInv s2 ∧
    TokenBucket.refillStep s now =
      { tokens := min TOKEN_BUCKET_MAX
          (s.tokens + ((now - s.lastRefill) / TOKEN_BUCKET_REFILL_INTERVAL : Nat)
            * TOKEN_BUCKET_REFILL_RATE),
        lastRefill := now } ∧
    (∀ t, t - s.lastRefill < TOKEN_BUCKET_REFILL_INTERVAL →
      TokenBucket.refillStep s t = s) := by
  refine ⟨?_, runCalls_inv calls s s2 hs hrun, ?_, ?_⟩
  · constructor
    · norm_num [TokenBucket.init, TOKEN_BUCKET_MAX]
    · norm_num [TokenBucket.init]
  · have hcond : 1 ≤ (now - s.lastRefill) / TOKEN_BUCKET_REFILL_INTERVAL :=
      (Nat.one_le_div_iff (by norm_num [TOKEN_BUCKET_REFILL_INTERVAL])).mpr hel
    simp only [TokenBucket.refillStep, if_pos hcond]
  · intro t ht
    have hcond : ¬ 1 ≤ (t - s.lastRefill) / TOKEN_BUCKET_REFILL_INTERVAL := by
      rw [Nat.one_le_div_iff (by norm_num [TOKEN_BUCKET_REFILL_INTERVAL])]
      omega
    simp only [TokenBucket.refillStep, if_neg hcond]

/-- C6 witness: one completed call from the initial state at clock 0 leaves
4999 tokens, inside the invariant; the entry reading 90 satisfies the
whole-interval premise. -/
theorem C6_token_bucket_invariant_amended_witness : BucketInv ⟨4999, 0⟩ :=
  (C6_token_bucket_invariant_amended (TokenBucket.init 0) ⟨4999, 0⟩ [(0, [])] 0 90
    (by constructor <;> decide) (by decide) (by decide)).2.1

/-- C8 counterexample: the join is rerun on identical frozen inputs at two
different clock readings and the two denormalized records differ (the
`Last_Updated` and longevity fields embed `datetime.now()`), so the output is
not a function of the collections alone. -/
theorem C8_counterexample :
    process_user_data (some ⟨some 1, none, none, none, none, none, none, none⟩)
        (fun _ => none) [] [] [] (fun _ => none) [] (fun _ => none) 100 ≠
      process_user_data (some ⟨some 1, none, none, none, none, none, none, none⟩)
        (fun _ => none) [] [] [] (fun _ => none) [] (fun _ => none) 200 := by
  decide

/-- C8 (amended): rerunning `process_user_data` on the same frozen inputs
yields records that agree on every field except the three clock-derived ones
(`Account_Longevity_Days`, `Last_Updated`, `Data_Collection_Timestamp`); the
full records are byte-identical precisely when the clock readings coincide —
whenever a record is produced at all, equal outputs force equal readings. -/
theorem C8_join_clock_dependence_amended (user : Option UserRec)
    (userDetails : Nat → Option DetailedInfo) (uq : List QuestionRec)
    (ua : List AnswerRec) (uar : List ArticleRec) (aa : Nat → Option AcceptedInfo)
    (sme : List (Nat × List Nat)) (cache : Nat → Option String) (now1 now2 : Nat) :
    (process_user_data user userDetails uq ua uar aa sme cache now1).map
        UserData.clockNormalized =
      (process_user_data user userDetails uq ua uar aa sme cache now2).map
        UserData.clockNormalized ∧
    ((process_user_data user userDetails uq ua uar aa sme cache now1).isSome →
      process_user_data user userDetails uq ua uar aa sme cache now1 =
        process_user_data user userDetails uq ua uar aa sme cache now2 →
      now1 = now2) := by
  cases user with
  | none => simp [process_user_data]
  | some u =>
    cases hid : u.id with
    | none => simp [process_user_data, hid]
    | some uid =>
      by_cases huid : uid = 0
      · simp [process_user_data, hid, huid]
      · constructor
        · simp [process_user_data, hid, huid, UserData.clockNormalized]
        · intro hsome heq
          simp only [process_user_data, hid, if_neg huid] at heq
          have h2 := congrArg (fun o => (Option.map UserData.Last_Updated o).getD 0) heq
          simpa using h2

/-- C8 witness: the clock-normalized projections of two runs at readings 100
and 200 agree. -/
theorem C8_join_clock_dependence_amended_witness :
    (process_user_data (some ⟨some 1, none, none, none, none, none, none, none⟩)
        (fun _ => none) [] [] [] (fun _ => none) [] (fun _ => none) 100).map
        UserData.clockNormalized =
      (process_user_data (some ⟨some 1, none, none, none, none, none, none, none⟩)
        (fun _ => none) [] [] [] (fun _ => none) [] (fun _ => none) 200).map
        UserData.clockNormalized :=
  (C8_join_clock_dependence_amended (some ⟨some 1, none, none, none, none, none, none, none⟩)
    (fun _ => none) [] [] [] (fun _ => none) [] (fun _ => none) 100 200).1

/-- C9 counterexample: with two accepted answers (ids 1 then 2) for the same
question 10, the extraction keeps the projection of answer 2 — the last one
encountered — not of answer 1, so the claim that the first is kept is false.
-/
theorem C9_counterexample :
    extract_accepted_answers
        [⟨some 1, some 10, none, true, false, none, none, 0, none, none⟩,
         ⟨some 2, some 10, none, true, false, none, none, 0, none, none⟩] 10 ≠
      some (AnswerRec.toAcceptedInfo
        ⟨some 1, some 10, none, true, false, none, none, 0, none, none⟩) ∧
    extract_accepted_answers
        [⟨some 1, some 10, none, true, false, none, none, 0, none, none⟩,
         ⟨some 2, some 10, none, true, false, none, none, 0, none, none⟩] 10 =
      some (AnswerRec.toAcceptedInfo
        ⟨some 2, some 10, none, true, false, none, none, 0, none, none⟩) := by
  exact ⟨by decide, by decide⟩

/-- C9 (amended): duplicate accepted answers never raise; for a nonzero
question id the powerbi extraction keeps the LAST accepted answer encountered
in the collection (the dict assignment overwrites), while the knowledge-reuse
`get_accepted_answer` returns the FIRST accepted answer of its list. -/
theorem C9_accepted_answer_last_wins (answers answers2 : List AnswerRec)
    (q : Nat) (hq : q ≠ 0) :
    extract_accepted_answers answers q =
      (answers.reverse.find? (fun a => a.isAccepted && a.questionId == some q)).map
        AnswerRec.toAcceptedInfo ∧
    get_accepted_answer answers2 = answers2.find? (fun a => a.isAccepted) := by
  constructor
  · rw [extract_accepted_answers, extract_foldl_lookup q hq answers (fun _ => none)]
    cases answers.reverse.find? (fun a => a.isAccepted && a.questionId == some q) <;> rfl
  · induction answers2 with
    | nil => rfl
    | cons a rest ih =>
      by_cases h : a.isAccepted <;> simp [get_accepted_answer, List.find?_cons, h, ih]

/-- C9 witness: on a two-answer collection with a duplicate accepted answer
for question 10, the characterization evaluates to the last answer's
projection. -/
theorem C9_accepted_answer_last_wins_witness :
    extract_accepted_answers
        [⟨some 3, some 10, none, true, false, none, none, 0, none, none⟩,
         ⟨some 4, some 10, none, true, false, none, none, 0, none, none⟩] 10 =
      (([⟨some 3, some 10, none, true, false, none, none, 0, none, none⟩,
         (⟨some 4, some 10, none, true, false, none, none, 0, none, none⟩ : AnswerRec)].reverse.find?
          (fun a => a.isAccepted && a.questionId == some 10)).map AnswerRec.toAcceptedInfo) :=
  (C9_accepted_answer_last_wins
    [⟨some 3, some 10, none, true, false, none, none, 0, none, none⟩,
     ⟨some 4, some 10, none, true, false, none, none, 0, none, none⟩] [] 10 (by decide)).1

/-- C10: with a from/to filter configured, the date-filter pass retains
exactly the fetched users whose `creation_date` is present and lies between
midnight at the start of the from date and midnight at the start of the to
date plus 86400 seconds (both bounds inclusive), and drops every user whose
`creation_date` is absent. -/
theorem C10_date_filter (fromDay toDay : Nat) (items : List V2User) (u : V2User)
    (hfrom : 1 ≤ fromDay) :
    (u ∈ get_users_created_in_timeframe fromDay toDay items ↔
      u ∈ items ∧ ∃ cd, u.creation_date = some cd ∧
        convert_date_to_epoch fromDay ≤ cd ∧ cd ≤ convert_date_to_epoch toDay + 86400) ∧
    (u.creation_date = none → u ∉ get_users_created_in_timeframe fromDay toDay items) := by
  constructor
  · rw [get_users_created_in_timeframe, List.mem_filter]
    constructor
    · rintro ⟨hmem, hp⟩
      refine ⟨hmem, ?_⟩
      unfold inTimeframe at hp
      cases hcd : u.creation_date with
      | none => rw [hcd] at hp; simp at hp
      | some cd =>
        rw [hcd] at hp
        simp at hp
        exact ⟨cd, rfl, hp.1.2, hp.2⟩
    · rintro ⟨hmem, cd, hcd, h1, h2⟩
      refine ⟨hmem, ?_⟩
      unfold inTimeframe
      rw [hcd]
      have hcd0 : cd ≠ 0 := by
        unfold convert_date_to_epoch at h1
        omega
      simp [hcd0, h1, h2]
  · intro hnone hmem
    rw [get_users_created_in_timeframe, List.mem_filter] at hmem
    unfold inTimeframe at hmem
    rw [hnone] at hmem
    simp at hmem

/-- C10 witness: a user created at epoch 100000 is retained by the filter for
days 1 to 2. -/
theorem C10_date_filter_witness :
    (⟨some 1, some 100000⟩ : V2User) ∈
      get_users_created_in_timeframe 1 2 [⟨some 1, some 100000⟩] :=
  (C10_date_filter 1 2 [⟨some 1, some 100000⟩] ⟨some 1, some 100000⟩ (by decide)).1.mpr
    ⟨by decide, 100000, rfl, by decide, by decide⟩

end StackApi
